import Mathlib

/-!
Verification development for the CUTIE exporter (cutie.py and
class_def/configuration.py): a shallow embedding of the record mapper,
the page fetcher, the pagination orchestrator and the configuration
merge, with theorems about the frozen behavioural claims.

Conventions of the embedding:
  - machine strings stay `String`; JSON null and Python `None` are `Option.none`;
  - a cell of an output row is `Option String` (the wire protocol carries
    string-valued fields);
  - fallible Python code (code that can raise) is embedded as
    `Except String`; the message records the kind of exception;
  - the in-place dictionary mutation of `merge_dicts` is embedded with an
    explicit heap of dictionary objects addressed by `Nat`.
-/

/-- embeds the constant QUERY_RESULT_MAX_PER_REQUEST of cutie.py (line 48). -/
def QUERY_RESULT_MAX_PER_REQUEST : Nat := 100

/-- embeds the constant MAX_CONNECTION_THREADS of cutie.py (line 52). -/
def MAX_CONNECTION_THREADS : Nat := 5

/-- a cell of an output row: a string value or the null placeholder. -/
abbrev Cell := Option String

/-- one output row, as written by worksheet.write_row. -/
abbrev Row := List Cell

/-- the field mapping: an ordered list of (display-name, source-key) pairs,
mirroring the insertion-ordered Python dict `mapping`. Display names are
unique by the FieldMapping invariant. -/
abbrev Mapping := List (String × String)

/-- one field of a raw server-side record: a name together with the list of
its value entries (`none` is a JSON null / missing "value" key). -/
structure RawField where
  name : String
  values : List Cell
deriving DecidableEq, Repr

/-- one raw record: the list under its "Fields" key. -/
structure RawRecord where
  fields : List RawField
deriving DecidableEq, Repr

/-- lookup in an insertion-ordered association list, mirroring dict.get. -/
def dictGet {α : Type} : List (String × α) → String → Option α
  | [], _ => none
  | (k, v) :: rest, key => if k = key then some v else dictGet rest key

/-- assignment d[k] = v on an insertion-ordered association list, mirroring
Python dict assignment: replace the first binding of the key in place if the
key is bound, otherwise append the new binding at the end. -/
def setKey {α : Type} : List (String × α) → String → α → List (String × α)
  | [], k, v => [(k, v)]
  | (k0, v0) :: rest, k, v =>
    if k0 = k then (k, v) :: rest else (k0, v0) :: setKey rest k v

/-- Modelled from the spec: the HTML-to-plain-text reduction applied to
description fields. The source delegates it to the external BeautifulSoup
library (cutie.py line 71), which is not part of this repository; per the
spec it strips all markup and keeps only the visible text. The model drops
every character span between an opening and a closing angle bracket. -/
def stripHtml (s : String) : String :=
  String.mk
    (((s.toList.foldl
        (fun (st : Bool × List Char) c =>
          match st, c with
          | (false, acc), '<' => (true, acc)
          | (false, acc), c => (false, c :: acc)
          | (true, acc), '>' => (false, acc)
          | (true, acc), _ => (true, acc))
        (false, []))).2.reverse)

/-- embeds the loop of map_entity_to_test building test_field_dict
(cutie.py lines 56 to 66), with the dictionary built so far as explicit
accumulator: a field contributes a binding exactly when its value list has
exactly one entry and that entry is non-null; every other field is
skipped. -/
def test_field_dict_from (d : List (String × String)) :
    List RawField → List (String × String)
  | [] => d
  | f :: rest =>
    test_field_dict_from
      (match f.values with
       | [some v] => setKey d f.name v
       | _ => d)
      rest

/-- the dictionary built by the loop of map_entity_to_test, starting from
the empty dictionary. -/
def test_field_dict (fields : List RawField) : List (String × String) :=
  test_field_dict_from [] fields

/-- embeds map_entity_to_test (cutie.py lines 55 to 73): build
test_field_dict from the raw record, then produce one cell per mapping
entry; a non-description source-key yields test_field_dict.get(key), the
reserved description key yields the HTML-stripped value with the empty
string as fallback. -/
def map_entity_to_test (t : RawRecord) (mapping : Mapping) : Row :=
  let d := test_field_dict t.fields
  mapping.map
    (fun p =>
      if p.2 ≠ "description" then
        dictGet d p.2
      else
        some (stripHtml ((dictGet d p.2).getD "")))

example : stripHtml "<b>Pass</b> 100%" = "Pass 100%" := by decide
example :
    map_entity_to_test ⟨[⟨"name", [some "T1"]⟩]⟩ [("Test name", "name"), ("Owner", "owner")]
      = [some "T1", none] := by decide
example :
    map_entity_to_test ⟨[]⟩ [("Desc", "description")] = [some ""] := by decide

/-- a parsed JSON value, as produced by json.loads. -/
inductive PyJson where
  | null : PyJson
  | str : String → PyJson
  | num : Int → PyJson
  | bool : Bool → PyJson
  | arr : List PyJson → PyJson
  | obj : List (String × PyJson) → PyJson

/-- decodes one entry of a "values" list into a cell. The source reads
entry.get("value") (cutie.py line 61): a missing "value" key or an explicit
null both give the Python None; any non-object entry would make .get raise.
The wire protocol carries string values, so a non-string value is out of the
modelled space and decodes to an error. -/
def decodeValueEntry : PyJson → Except String Cell
  | .obj flds =>
    match dictGet flds "value" with
    | some (.str s) => Except.ok (some s)
    | some .null => Except.ok none
    | none => Except.ok none
    | some _ => Except.error "ValueError: non-string field value"
  | _ => Except.error "AttributeError: value entry is not an object"

/-- decodes one entry of the "Fields" list of a raw record. The source reads
field.get("Name") and field.get("values") (cutie.py lines 58 to 59); a field
that is not an object, or whose Name is not a string, or whose values is not
a list, makes the loop body raise and decodes to an error. -/
def decodeField : PyJson → Except String RawField
  | .obj flds =>
    match dictGet flds "Name", dictGet flds "values" with
    | some (.str name), some (.arr vs) =>
      (vs.mapM decodeValueEntry).map (fun values => ⟨name, values⟩)
    | _, _ => Except.error "TypeError: malformed field object"
  | _ => Except.error "AttributeError: field is not an object"

/-- decodes one element of the "entities" list. The source reads
test.get("Fields") and iterates it (cutie.py lines 57, 101 to 102); a
non-object test or a missing or non-list "Fields" raises. -/
def decodeEntity : PyJson → Except String RawRecord
  | .obj flds =>
    match dictGet flds "Fields" with
    | some (.arr fs) => (fs.mapM decodeField).map RawRecord.mk
    | _ => Except.error "TypeError: Fields is missing or not a list"
  | _ => Except.error "AttributeError: test entity is not an object"

/-- embeds fetch_test_from_index (cutie.py lines 76 to 103), as a function
of the single HTTP response it observes: the pair of a status code and an
already parsed JSON body. A status other than exactly 200 returns the
failure marker None (here `Except.ok Option.none`) without raising and
without any further request; on status 200 the body is read at its
"entities" key and every entity is mapped through map_entity_to_test, and
a body that is not a JSON object, or has no "entities" list, raises
(here `Except.error`). -/
def fetch_test_from_index (status : Nat) (body : PyJson) (mapping : Mapping) :
    Except String (Option (List Row)) :=
  if status ≠ 200 then
    Except.ok none
  else
    match body with
    | .obj flds =>
      match dictGet flds "entities" with
      | some (.arr tests) =>
        (tests.mapM decodeEntity).map
          (fun recs => some (recs.map (fun t => map_entity_to_test t mapping)))
      | some _ => Except.error "TypeError: entities value is not a list of records"
      | none => Except.error "TypeError: NoneType object is not iterable"
    | _ => Except.error "AttributeError: response body has no attribute get"

/-- the observable outcome of one submitted future, as inspected by the
collection loop of main (cutie.py lines 275 to 288): it may have been
cancelled, it may raise from future.result(), or it may complete with
either the failure marker None or a list of mapped rows. -/
inductive TaskOutcome where
  | cancelled : TaskOutcome
  | raised : TaskOutcome
  | completed : Option (List Row) → TaskOutcome
deriving DecidableEq

/-- the rows a task outcome contributes: only a completed task whose result
is not the failure marker contributes its page of rows. -/
def page_rows : TaskOutcome → Option (List Row)
  | .completed (some rows) => some rows
  | _ => none

/-- embeds the collection loop of main (cutie.py lines 275 to 288) together
with its progress accounting: starting from the table holding only the
header row and progress 0, iterate the futures in submission order; a
cancelled future is skipped entirely; a raising future is caught and adds
nothing; a non-None result extends the table; the finally block advances
progress by QUERY_RESULT_MAX_PER_REQUEST for every non-cancelled future. -/
def collect_results (header : Row) (outcomes : List TaskOutcome) : List Row × Nat :=
  outcomes.foldl
    (fun st o =>
      match o with
      | .cancelled => st
      | .raised => (st.1, st.2 + QUERY_RESULT_MAX_PER_REQUEST)
      | .completed none => (st.1, st.2 + QUERY_RESULT_MAX_PER_REQUEST)
      | .completed (some rows) => (st.1 ++ rows, st.2 + QUERY_RESULT_MAX_PER_REQUEST))
    ([header], 0)

/-- embeds the Python builtin range(start, stop, step) for a positive step:
the values start + k * step while they are below stop. -/
def pyRange (start stop step : Nat) : List Nat :=
  (List.range ((stop - start + step - 1) / step)).map (fun k => start + k * step)

/-- embeds the start-index generator of main (cutie.py line 273):
range(1, test_count, QUERY_RESULT_MAX_PER_REQUEST). -/
def startIndices (total : Nat) : List Nat :=
  pyRange 1 total QUERY_RESULT_MAX_PER_REQUEST

/-- models the worker pool filling result slots in completion order: the
futures list has one slot per submitted task, initially unresolved; the
schedule lists the positions of the tasks in the order they complete, and
each completion stores that task's own outcome into that task's own slot.
The outcome of a task is a function of the task alone, never of the
schedule, which mirrors the fact that a future carries the result of its
own call. -/
def fill_slots (tasks : List TaskOutcome) (schedule : List Nat) :
    List (Option TaskOutcome) :=
  schedule.foldl
    (fun slots j =>
      match tasks[j]? with
      | some t => slots.set j (some t)
      | none => slots)
    (List.replicate tasks.length none)

/-- models the orchestrator waiting on every future in submission order:
it needs every slot resolved; a schedule that never completes some task
leaves the orchestrator blocked (modelled as none). -/
def await_all : List (Option TaskOutcome) → Option (List TaskOutcome)
  | [] => some []
  | none :: _ => none
  | some t :: rest => (await_all rest).map (fun ts => t :: ts)

/-- embeds the orchestration of main (cutie.py lines 246 to 288): the
header row is the list of display names of the mapping; one fetch task is
submitted per generated start-index; the pool resolves them in schedule
(completion) order; the collection loop then walks the futures in
submission order. The result is the final table paired with the total
progress advanced, or none if the schedule never resolves some task. -/
def run_export (mapping : Mapping) (fetch : Nat → TaskOutcome) (total : Nat)
    (schedule : List Nat) : Option (List Row × Nat) :=
  (await_all (fill_slots ((startIndices total).map fetch) schedule)).map
    (fun outcomes => collect_results (mapping.map (fun p => some p.1)) outcomes)

/-- a Python value stored in a configuration dictionary: either a non-dict
value (kept abstract as its string form) or a reference to a dictionary
object living on the heap. -/
inductive PyVal where
  | prim : String → PyVal
  | ref : Nat → PyVal
deriving DecidableEq, Repr

/-- a dictionary object: an insertion-ordered association list. -/
abbrev PyDict := List (String × PyVal)

/-- the heap of dictionary objects; an address is a position. -/
abbrev Heap := List PyDict

/-- reads the dictionary object at an address. -/
def heapGet (h : Heap) (a : Nat) : PyDict := h.getD a []

/-- overwrites the dictionary object at an address. -/
def heapSet (h : Heap) (a : Nat) (d : PyDict) : Heap := h.set a d

/-- embeds merge_dicts of class_def/configuration.py (lines 61 to 81) over
the explicit heap: the two arguments are addresses of dictionary objects;
the items of the update dictionary are walked in order and each is written
into the original dictionary object in place; the address returned is the
address of the original dictionary. A non-dict value is assigned directly;
a dict value is merged recursively into orig_dict.get(key, OrderedDict())
— the existing sub-dictionary when the key is bound to one, a freshly
allocated empty dictionary otherwise — and the returned reference is
assigned back; a key bound in the original to a non-dict value while bound
in the update to a dict makes the recursive call raise (items() on a
non-dict), modelled as none. The fuel bounds the nesting depth (Python
would hit its own recursion limit on a cyclic heap); none models a raised
exception or exhausted fuel. -/
def merge_dicts : Nat → Heap → Nat → Nat → Option (Heap × Nat)
  | 0, _, _, _ => none
  | Nat.succ f, h, orig, upd =>
    ((heapGet h upd).foldl
        (fun oh kv =>
          match oh with
          | none => none
          | some h =>
            match kv.2 with
            | .prim s =>
              some (heapSet h orig (setKey (heapGet h orig) kv.1 (.prim s)))
            | .ref updSub =>
              match dictGet (heapGet h orig) kv.1 with
              | some (.ref origSub) =>
                match merge_dicts f h origSub updSub with
                | some (h2, res) =>
                  some (heapSet h2 orig (setKey (heapGet h2 orig) kv.1 (.ref res)))
                | none => none
              | some (.prim _) => none
              | none =>
                match merge_dicts f (h ++ [[]]) h.length updSub with
                | some (h2, res) =>
                  some (heapSet h2 orig (setKey (heapGet h2 orig) kv.1 (.ref res)))
                | none => none)
        (some h)).map
      (fun h2 => (h2, orig))

example :
    merge_dicts 1 [[("a", PyVal.prim "1")], [("a", PyVal.prim "2")]] 0 1
      = some ([[("a", PyVal.prim "2")], [("a", PyVal.prim "2")]], 0) := by decide

example : startIndices 250 = [1, 101, 201] := by decide
example : startIndices 1 = [] := by decide
example : startIndices 101 = [1] := by decide
example :
    run_export [("Test name", "name")]
      (fun i => .completed (some [[some (toString i)]])) 250 [2, 0, 1]
      = some ([[some "Test name"], [some "1"], [some "101"], [some "201"]], 300) := by
  decide

/-! ### Lemmas about the record mapper -/

theorem dictGet_setKey_self {α : Type} (d : List (String × α)) (k : String) (v : α) :
    dictGet (setKey d k v) k = some v := by
  induction d with
  | nil => simp [setKey, dictGet]
  | cons p rest ih =>
    by_cases h : p.1 = k
    · simp [setKey, h, dictGet]
    · simp [setKey, h, dictGet, ih]

theorem dictGet_setKey_ne {α : Type} (d : List (String × α)) (k k2 : String) (v : α)
    (h : k ≠ k2) : dictGet (setKey d k v) k2 = dictGet d k2 := by
  induction d with
  | nil => simp [setKey, dictGet, h]
  | cons p rest ih =>
    by_cases hp : p.1 = k
    · subst hp
      simp [setKey, dictGet, h]
    · simp [setKey, hp, dictGet, ih]

theorem test_field_dict_from_not_mem (fields : List RawField)
    (d : List (String × String)) (name : String)
    (h : ∀ f ∈ fields, f.name ≠ name) :
    dictGet (test_field_dict_from d fields) name = dictGet d name := by
  induction fields generalizing d with
  | nil => rfl
  | cons f rest ih =>
    have hf : f.name ≠ name := h f (List.mem_cons_self f rest)
    have hrest : ∀ g ∈ rest, g.name ≠ name := fun g hg => h g (List.mem_cons_of_mem f hg)
    rw [test_field_dict_from]
    rw [ih _ hrest]
    match hv : f.values with
    | [some v] => simp [dictGet_setKey_ne _ _ _ _ hf]
    | [] => simp
    | [none] => simp
    | _ :: _ :: _ => simp

theorem test_field_dict_lookup (fields : List RawField)
    (hnd : (fields.map RawField.name).Nodup) (fld : RawField) (hmem : fld ∈ fields)
    (d : List (String × String)) :
    dictGet (test_field_dict_from d fields) fld.name =
      (match fld.values with
       | [some v] => some v
       | _ => dictGet d fld.name) := by
  induction fields generalizing d with
  | nil => cases hmem
  | cons f rest ih =>
    rcases List.mem_cons.mp hmem with heq | hmemr
    · subst heq
      have hnot : ∀ g ∈ rest, g.name ≠ fld.name := by
        intro g hg
        have := (List.nodup_cons.mp hnd).1
        intro hgn
        exact this (hgn ▸ List.mem_map_of_mem RawField.name hg)
      rw [test_field_dict_from]
      rw [test_field_dict_from_not_mem _ _ _ hnot]
      match hv : fld.values with
      | [some v] => simp [dictGet_setKey_self]
      | [] => simp
      | [none] => simp
      | _ :: _ :: _ => simp
    · have hne : f.name ≠ fld.name := by
        intro hfn
        exact (List.nodup_cons.mp hnd).1
          (hfn ▸ List.mem_map_of_mem RawField.name hmemr)
      have hndr : (rest.map RawField.name).Nodup := (List.nodup_cons.mp hnd).2
      rw [test_field_dict_from]
      rw [ih hndr hmemr]
      match hv : f.values with
      | [some v] => simp [dictGet_setKey_ne _ _ _ _ hne]
      | [] => simp
      | [none] => simp
      | _ :: _ :: _ => simp

theorem map_entity_to_test_append (r : RawRecord) (pre post : Mapping)
    (dn k : String) :
    map_entity_to_test r (pre ++ (dn, k) :: post) =
      map_entity_to_test r pre ++
        (if k ≠ "description" then dictGet (test_field_dict r.fields) k
         else some (stripHtml ((dictGet (test_field_dict r.fields) k).getD ""))) ::
          map_entity_to_test r post := by
  simp [map_entity_to_test]

/-! ### Claims C5, C6, C7: the record mapper -/

/-- C5 (counterexample): the claim fails as stated. For the mapping entry
("Desc", "description") and a raw record from which no scalar was
extracted, the value placed in the output row is the empty string produced
by the description branch, not the null placeholder the claim requires. -/
theorem c5_description_breaks_null_counterexample :
    map_entity_to_test ⟨[]⟩ [("Desc", "description")] = [some ""] ∧
      dictGet (test_field_dict ([] : List RawField)) "description" = none ∧
      (some "" : Cell) ≠ (none : Cell) := by
  refine ⟨by decide, by decide, by decide⟩

/-- C5 (amended): for every raw record and every mapping entry
(display-name, source-key) whose source-key is not the reserved key
"description", the value placed in the output row at that entry position
is the extracted scalar for the source-key when one was extracted, and the
null placeholder otherwise (both cases being exactly the lookup of the
source-key in the extracted field dictionary). -/
theorem c5_non_description_value (r : RawRecord) (pre post : Mapping)
    (dn k : String) (hk : k ≠ "description") :
    map_entity_to_test r (pre ++ (dn, k) :: post) =
      map_entity_to_test r pre ++
        dictGet (test_field_dict r.fields) k :: map_entity_to_test r post := by
  rw [map_entity_to_test_append]
  simp [hk]

/-- C5 (witness): the amended theorem at a concrete input, one extracted
key and one missing key. -/
theorem c5_non_description_value_witness :
    ("name" : String) ≠ "description" ∧
      map_entity_to_test ⟨[⟨"name", [some "T1"]⟩]⟩ ([] ++ ("Test name", "name") :: [("Owner", "owner")]) =
        map_entity_to_test ⟨[⟨"name", [some "T1"]⟩]⟩ [] ++
          dictGet (test_field_dict [⟨"name", [some "T1"]⟩]) "name" ::
            map_entity_to_test ⟨[⟨"name", [some "T1"]⟩]⟩ [("Owner", "owner")] :=
  ⟨by decide,
   c5_non_description_value ⟨[⟨"name", [some "T1"]⟩]⟩ [] [("Owner", "owner")]
     "Test name" "name" (by decide)⟩

/-- C6: a mapping entry whose source-key is the reserved key "description"
has its extracted value passed through the HTML-to-plain-text reduction
before being placed in the row; an entry with any other source-key receives
the extracted value unmodified even when it holds the same markup; and the
reduction turns the markup example into its visible text. -/
theorem c6_description_sanitization :
    (∀ (r : RawRecord) (pre post : Mapping) (dn v : String),
        dictGet (test_field_dict r.fields) "description" = some v →
        map_entity_to_test r (pre ++ (dn, "description") :: post) =
          map_entity_to_test r pre ++
            some (stripHtml v) :: map_entity_to_test r post) ∧
    (∀ (r : RawRecord) (pre post : Mapping) (dn k v : String),
        k ≠ "description" →
        dictGet (test_field_dict r.fields) k = some v →
        map_entity_to_test r (pre ++ (dn, k) :: post) =
          map_entity_to_test r pre ++ some v :: map_entity_to_test r post) ∧
    stripHtml "<b>Pass</b> 100%" = "Pass 100%" := by
  refine ⟨?_, ?_, by decide⟩
  · intro r pre post dn v hv
    rw [map_entity_to_test_append]
    simp [hv]
  · intro r pre post dn k v hk hv
    rw [map_entity_to_test_append]
    simp [hk, hv]

/-- C6 (witness): the sanitization theorem at the concrete markup value of
the claim, under a description entry and under a non-description entry. -/
theorem c6_description_sanitization_witness :
    (dictGet (test_field_dict [⟨"description", [some "<b>Pass</b> 100%"]⟩]) "description"
        = some "<b>Pass</b> 100%" ∧
      map_entity_to_test ⟨[⟨"description", [some "<b>Pass</b> 100%"]⟩]⟩
          ([] ++ ("Desc", "description") :: []) =
        map_entity_to_test ⟨[⟨"description", [some "<b>Pass</b> 100%"]⟩]⟩ [] ++
          some (stripHtml "<b>Pass</b> 100%") ::
            map_entity_to_test ⟨[⟨"description", [some "<b>Pass</b> 100%"]⟩]⟩ []) ∧
    (("user-01" : String) ≠ "description" ∧
      dictGet (test_field_dict [⟨"user-01", [some "<b>Pass</b> 100%"]⟩]) "user-01"
        = some "<b>Pass</b> 100%" ∧
      map_entity_to_test ⟨[⟨"user-01", [some "<b>Pass</b> 100%"]⟩]⟩
          ([] ++ ("Config interface", "user-01") :: []) =
        map_entity_to_test ⟨[⟨"user-01", [some "<b>Pass</b> 100%"]⟩]⟩ [] ++
          some "<b>Pass</b> 100%" ::
            map_entity_to_test ⟨[⟨"user-01", [some "<b>Pass</b> 100%"]⟩]⟩ []) :=
  ⟨⟨by decide,
    c6_description_sanitization.1 ⟨[⟨"description", [some "<b>Pass</b> 100%"]⟩]⟩
      [] [] "Desc" "<b>Pass</b> 100%" (by decide)⟩,
   ⟨by decide, by decide,
    c6_description_sanitization.2.1 ⟨[⟨"user-01", [some "<b>Pass</b> 100%"]⟩]⟩
      [] [] "Config interface" "user-01" "<b>Pass</b> 100%" (by decide) (by decide)⟩⟩

/-- C7 (counterexample): the claim fails as stated. A raw-record field
named "description" with two value entries is ambiguous and the claim
requires it to contribute null to the output row, but under the mapping
entry ("Desc", "description") the row holds the empty string instead. -/
theorem c7_ambiguous_description_counterexample :
    map_entity_to_test ⟨[⟨"description", [some "a", some "b"]⟩]⟩ [("Desc", "description")]
        = [some ""] ∧
      (some "" : Cell) ≠ (none : Cell) := by
  refine ⟨by decide, by decide⟩

/-- C7 (amended): for every raw record whose field names are distinct and
every field of it, at every output position whose mapping entry carries
that field name as source-key and is not the reserved "description" entry:
a value list with zero entries, two or more entries, or a single null entry
contributes the null placeholder, and a value list with exactly one
non-null entry contributes that entry value. -/
theorem c7_ambiguous_value_dropping (r : RawRecord)
    (hnd : (r.fields.map RawField.name).Nodup) (fld : RawField)
    (hmem : fld ∈ r.fields) (pre post : Mapping) (dn : String)
    (hk : fld.name ≠ "description") :
    map_entity_to_test r (pre ++ (dn, fld.name) :: post) =
      map_entity_to_test r pre ++
        (match fld.values with
         | [some v] => some v
         | _ => (none : Cell)) :: map_entity_to_test r post := by
  rw [map_entity_to_test_append]
  simp only [hk, if_true, ite_not, if_neg]
  have hlook := test_field_dict_lookup r.fields hnd fld hmem []
  rw [test_field_dict]
  rw [hlook]
  match hv : fld.values with
  | [some v] => simp [hk]
  | [] => simp [dictGet, hk]
  | [none] => simp [dictGet, hk]
  | _ :: _ :: _ => simp [dictGet, hk]

/-- C7 (witness): the amended theorem at concrete inputs covering an
ambiguous two-value field and a single non-null-value field. -/
theorem c7_ambiguous_value_dropping_witness :
    (([⟨"user-05", [some "a", some "b"]⟩, ⟨"name", [some "T1"]⟩].map RawField.name).Nodup ∧
      (⟨"user-05", [some "a", some "b"]⟩ : RawField) ∈
        [(⟨"user-05", [some "a", some "b"]⟩ : RawField), ⟨"name", [some "T1"]⟩] ∧
      ("user-05" : String) ≠ "description" ∧
      map_entity_to_test ⟨[⟨"user-05", [some "a", some "b"]⟩, ⟨"name", [some "T1"]⟩]⟩
          ([] ++ ("IP version", "user-05") :: [("Test name", "name")]) =
        map_entity_to_test ⟨[⟨"user-05", [some "a", some "b"]⟩, ⟨"name", [some "T1"]⟩]⟩ [] ++
          (none : Cell) ::
            map_entity_to_test ⟨[⟨"user-05", [some "a", some "b"]⟩, ⟨"name", [some "T1"]⟩]⟩
              [("Test name", "name")]) ∧
    (map_entity_to_test ⟨[⟨"name", [some "T1"]⟩]⟩ ([] ++ ("Test name", "name") :: []) =
        map_entity_to_test ⟨[⟨"name", [some "T1"]⟩]⟩ [] ++
          (some "T1" : Cell) :: map_entity_to_test ⟨[⟨"name", [some "T1"]⟩]⟩ []) :=
  ⟨⟨by decide, by decide, by decide,
    c7_ambiguous_value_dropping
      ⟨[⟨"user-05", [some "a", some "b"]⟩, ⟨"name", [some "T1"]⟩]⟩ (by decide)
      ⟨"user-05", [some "a", some "b"]⟩ (by decide) [] [("Test name", "name")]
      "IP version" (by decide)⟩,
   c7_ambiguous_value_dropping ⟨[⟨"name", [some "T1"]⟩]⟩ (by decide)
     ⟨"name", [some "T1"]⟩ (by decide) [] [] "Test name" (by decide)⟩

/-! ### Lemmas about the orchestrator -/

theorem fill_foldl_length (tasks : List TaskOutcome) (schedule : List Nat)
    (slots : List (Option TaskOutcome)) :
    (schedule.foldl
        (fun slots j =>
          match tasks[j]? with
          | some t => slots.set j (some t)
          | none => slots)
        slots).length = slots.length := by
  induction schedule generalizing slots with
  | nil => rfl
  | cons j rest ih =>
    rw [List.foldl_cons, ih]
    cases h : tasks[j]? <;> simp [h]

theorem fill_foldl_getElem (tasks : List TaskOutcome) (schedule : List Nat)
    (slots : List (Option TaskOutcome)) (hlen : slots.length = tasks.length)
    (i : Nat) (hi : i < tasks.length) :
    (schedule.foldl
        (fun slots j =>
          match tasks[j]? with
          | some t => slots.set j (some t)
          | none => slots)
        slots)[i]? =
      if i ∈ schedule then some (some tasks[i]) else slots[i]? := by
  induction schedule generalizing slots with
  | nil => simp
  | cons j rest ih =>
    have hlen2 :
        (match tasks[j]? with
         | some t => slots.set j (some t)
         | none => slots).length = tasks.length := by
      cases h : tasks[j]? <;> simp [h, hlen]
    rw [List.foldl_cons, ih _ hlen2]
    by_cases hm : i ∈ rest
    · simp [hm]
    · by_cases hij : i = j
      · subst hij
        have hget : tasks[i]? = some tasks[i] := List.getElem?_eq_getElem hi
        simp [hm, hget, List.getElem?_set, hlen, hi]
      · have hnot : i ∉ j :: rest := by
          simp [List.mem_cons, hij, hm]
        simp only [hnot, if_false, hm, if_false]
        cases h : tasks[j]? with
        | none => simp [h]
        | some t =>
          have hji : j ≠ i := fun hji => hij hji.symm
          simp only [h]
          rw [List.getElem?_set]
          simp [hji]

theorem fill_slots_eq_of_cover (tasks : List TaskOutcome) (schedule : List Nat)
    (hcov : ∀ i, i < tasks.length → i ∈ schedule) :
    fill_slots tasks schedule = tasks.map some := by
  apply List.ext_getElem?
  intro i
  by_cases hi : i < tasks.length
  · rw [fill_slots, fill_foldl_getElem tasks schedule _ (by simp) i hi]
    simp [hcov i hi, List.getElem?_eq_getElem hi]
  · have h1 : (fill_slots tasks schedule).length ≤ i := by
      rw [fill_slots, fill_foldl_length]
      simp only [List.length_replicate]
      omega
    have h2 : (tasks.map some).length ≤ i := by
      simp only [List.length_map]
      omega
    rw [List.getElem?_eq_none h1, List.getElem?_eq_none h2]

theorem await_all_map_some (tasks : List TaskOutcome) :
    await_all (tasks.map some) = some tasks := by
  induction tasks with
  | nil => rfl
  | cons t rest ih => simp [await_all, ih]

theorem collect_fold (outcomes : List TaskOutcome) (acc : List Row) (p : Nat) :
    outcomes.foldl
        (fun st o =>
          match o with
          | .cancelled => st
          | .raised => (st.1, st.2 + QUERY_RESULT_MAX_PER_REQUEST)
          | .completed none => (st.1, st.2 + QUERY_RESULT_MAX_PER_REQUEST)
          | .completed (some rows) =>
            (st.1 ++ rows, st.2 + QUERY_RESULT_MAX_PER_REQUEST))
        (acc, p) =
      (acc ++ (outcomes.filterMap page_rows).flatten,
       p + QUERY_RESULT_MAX_PER_REQUEST *
         outcomes.countP (fun o => decide (o ≠ TaskOutcome.cancelled))) := by
  induction outcomes generalizing acc p with
  | nil => simp
  | cons o rest ih =>
    cases o with
    | cancelled =>
      rw [List.foldl_cons]
      rw [ih]
      simp [page_rows, List.countP_cons]
    | raised =>
      rw [List.foldl_cons]
      rw [ih]
      simp [page_rows, List.filterMap_cons, List.countP_cons,
        QUERY_RESULT_MAX_PER_REQUEST, Prod.ext_iff]
      try omega
    | completed r =>
      cases r with
      | none =>
        rw [List.foldl_cons]
        rw [ih]
        simp [page_rows, List.filterMap_cons, List.countP_cons,
          QUERY_RESULT_MAX_PER_REQUEST, Prod.ext_iff]
        try omega
      | some rows =>
        rw [List.foldl_cons]
        rw [ih]
        simp [page_rows, List.filterMap_cons, List.countP_cons,
          QUERY_RESULT_MAX_PER_REQUEST, Prod.ext_iff, List.append_assoc]
        try omega

theorem collect_results_spec (header : Row) (outcomes : List TaskOutcome) :
    collect_results header outcomes =
      (header :: (outcomes.filterMap page_rows).flatten,
       QUERY_RESULT_MAX_PER_REQUEST *
         outcomes.countP (fun o => decide (o ≠ TaskOutcome.cancelled))) := by
  rw [collect_results, collect_fold]
  simp

theorem run_export_eq (m : Mapping) (fetch : Nat → TaskOutcome) (total : Nat)
    (schedule : List Nat)
    (hcov : ∀ j, j < (startIndices total).length → j ∈ schedule) :
    run_export m fetch total schedule =
      some (collect_results (m.map (fun p => some p.1))
        ((startIndices total).map fetch)) := by
  rw [run_export]
  rw [fill_slots_eq_of_cover _ _ (by simpa using hcov)]
  rw [await_all_map_some]
  rfl

/-! ### Claims C1, C2, C3, C8: the pagination orchestrator -/

/-- C1: for every mapping, every assignment of per-page outcomes, and every
completion schedule that resolves all submitted tasks, the assembled table
is the header row (the display names in mapping order) followed by the rows
of the successful pages concatenated in ascending start-index (submission)
order; the schedule does not occur on the right hand side, so completion
order has no effect on the output. -/
theorem c1_deterministic_page_order (m : Mapping) (fetch : Nat → TaskOutcome)
    (total : Nat) (schedule : List Nat)
    (hcov : ∀ j, j < (startIndices total).length → j ∈ schedule) :
    (run_export m fetch total schedule).map Prod.fst =
      some ((m.map (fun p => some p.1)) ::
        (((startIndices total).map fetch).filterMap page_rows).flatten) := by
  rw [run_export_eq m fetch total schedule hcov, collect_results_spec]
  rfl

/-- C1 (witness): total_count 250 gives pages 1, 101, 201; the completion
schedule 2, 0, 1 is out of submission order, yet the table rows appear in
start-index order. -/
theorem c1_deterministic_page_order_witness :
    (∀ j, j < (startIndices 250).length → j ∈ [2, 0, 1]) ∧
      (run_export [("Test name", "name")]
          (fun i => TaskOutcome.completed (some [[some (toString i)]]))
          250 [2, 0, 1]).map Prod.fst =
        some [[some "Test name"], [some "1"], [some "101"], [some "201"]] := by
  have hcov : ∀ j, j < (startIndices 250).length → j ∈ [2, 0, 1] := by
    intro j hj
    have h3 : (startIndices 250).length = 3 := by decide
    rw [h3] at hj
    interval_cases j <;> decide
  refine ⟨hcov, ?_⟩
  rw [c1_deterministic_page_order _ _ _ _ hcov]
  decide

/-- C2: for every total count congruent to 1 modulo the page size 100, no
generated start-index begins a page whose range of 100 record positions
contains the final record position, so the last record is never requested;
and for a total count of 1 no page is generated at all and the export is
the header row alone, with zero progress advanced. -/
theorem c2_last_record_never_requested (n : Nat) (h1 : 1 ≤ n) (h2 : n % 100 = 1) :
    (∀ i ∈ startIndices n, ¬(i ≤ n ∧ n < i + QUERY_RESULT_MAX_PER_REQUEST)) ∧
      startIndices 1 = [] ∧
      (∀ (m : Mapping) (fetch : Nat → TaskOutcome) (schedule : List Nat),
        run_export m fetch 1 schedule = some ([m.map (fun p => some p.1)], 0)) := by
  refine ⟨?_, by decide, ?_⟩
  · intro i hi
    simp only [startIndices, pyRange, QUERY_RESULT_MAX_PER_REQUEST, List.mem_map,
      List.mem_range] at hi
    obtain ⟨k, hk, rfl⟩ := hi
    simp only [QUERY_RESULT_MAX_PER_REQUEST]
    omega
  · intro m fetch schedule
    have h0 : startIndices 1 = [] := by decide
    rw [run_export_eq m fetch 1 schedule (by rw [h0]; intro j hj; simp at hj)]
    rw [h0]
    rfl

/-- C2 (witness): the theorem at total counts 201 and 1. -/
theorem c2_last_record_never_requested_witness :
    (1 ≤ 201 ∧ 201 % 100 = 1 ∧
      (∀ i ∈ startIndices 201, ¬(i ≤ 201 ∧ 201 < i + QUERY_RESULT_MAX_PER_REQUEST))) ∧
      startIndices 1 = [] ∧
      run_export [("Test name", "name")]
          (fun i => TaskOutcome.completed (some [[some (toString i)]])) 1 [] =
        some ([[some "Test name"]], 0) := by
  have h := c2_last_record_never_requested 201 (by decide) (by decide)
  refine ⟨⟨by decide, by decide, h.1⟩, h.2.1, ?_⟩
  exact h.2.2 [("Test name", "name")]
    (fun i => TaskOutcome.completed (some [[some (toString i)]])) []

/-- outcome assignment in which exactly the page at failIdx fails: the
filtered successful pages are all the others, in submission order. -/
theorem filterMap_page_rows_fail (idxs : List Nat) (pages : Nat → List Row)
    (failIdx : Nat) (o : TaskOutcome)
    (ho : o = TaskOutcome.raised ∨ o = TaskOutcome.completed none) :
    (idxs.map
        (fun i => if i = failIdx then o
                  else TaskOutcome.completed (some (pages i)))).filterMap page_rows =
      (idxs.filter (fun i => decide (i ≠ failIdx))).map pages := by
  induction idxs with
  | nil => rfl
  | cons i rest ih =>
    by_cases hif : i = failIdx
    · subst hif
      rcases ho with h | h <;> subst h <;>
        simp [page_rows, ih, List.filterMap_cons, List.filter_cons]
    · simp [hif, page_rows, ih, List.filterMap_cons, List.filter_cons]

/-- C3: for every run in which exactly the fetch of one start-index returns
the failure marker or raises, the run completes (the collection loop
catches the exception and continues), the failed page contributes zero
rows, and the final table holds the header followed by every row of every
other page, still in ascending start-index order. -/
theorem c3_partial_failure_tolerance (m : Mapping) (total : Nat)
    (schedule : List Nat) (pages : Nat → List Row) (failIdx : Nat)
    (o : TaskOutcome)
    (ho : o = TaskOutcome.raised ∨ o = TaskOutcome.completed none)
    (hcov : ∀ j, j < (startIndices total).length → j ∈ schedule) :
    (run_export m
        (fun i => if i = failIdx then o
                  else TaskOutcome.completed (some (pages i)))
        total schedule).map Prod.fst =
      some ((m.map (fun p => some p.1)) ::
        (((startIndices total).filter (fun i => decide (i ≠ failIdx))).map pages).flatten) := by
  rw [run_export_eq _ _ _ _ hcov, collect_results_spec,
    filterMap_page_rows_fail _ _ _ _ ho]
  rfl

/-- C3 (witness): 3 pages at start-indices 1, 101, 201 where the page at
101 returns the failure marker; the final table holds the header and all
rows of pages 1 and 201 and the run completes. -/
theorem c3_partial_failure_tolerance_witness :
    (TaskOutcome.completed none = TaskOutcome.raised ∨
      TaskOutcome.completed none = TaskOutcome.completed none) ∧
      (∀ j, j < (startIndices 250).length → j ∈ [0, 1, 2]) ∧
      (run_export [("Test name", "name")]
          (fun i => if i = 101 then TaskOutcome.completed none
                    else TaskOutcome.completed (some [[some (toString i)]]))
          250 [0, 1, 2]).map Prod.fst =
        some [[some "Test name"], [some "1"], [some "201"]] := by
  have hcov : ∀ j, j < (startIndices 250).length → j ∈ [0, 1, 2] := by
    intro j hj
    have h3 : (startIndices 250).length = 3 := by decide
    rw [h3] at hj
    interval_cases j <;> decide
  refine ⟨Or.inr rfl, hcov, ?_⟩
  rw [c3_partial_failure_tolerance [("Test name", "name")] 250 [0, 1, 2]
    (fun i => [[some (toString i)]]) 101 (TaskOutcome.completed none)
    (Or.inr rfl) hcov]
  decide

/-- C8 (counterexample): the claim fails as stated at total_count 101: one
start-index is generated, the total progress advanced over the run is 100,
and 100 is below the progress total of 101, so the indicator stops at less
than 100 percent. -/
theorem c8_progress_counterexample :
    QUERY_RESULT_MAX_PER_REQUEST * (startIndices 101).length < 101 ∧
      run_export [("Test name", "name")]
          (fun i => TaskOutcome.completed (some [[some (toString i)]])) 101 [0] =
        some ([[some "Test name"], [some "1"]], 100) ∧
      (100 : Nat) < 101 := by
  refine ⟨by decide, by decide, by decide⟩

/-- C8 (amended): for every total_count that is at least 1 and not
congruent to 1 modulo the page size, progress advances by exactly
page_size units per resolved (non-cancelled) task, and the total advanced,
page_size times the number of generated start-indices, is at least
total_count, so the indicator reaches 100 percent on completion. -/
theorem c8_progress_reaches_total (n : Nat) (h1 : 1 ≤ n) (h2 : n % 100 ≠ 1) :
    n ≤ QUERY_RESULT_MAX_PER_REQUEST * (startIndices n).length ∧
      (∀ (header : Row) (outcomes : List TaskOutcome),
        (∀ o ∈ outcomes, o ≠ TaskOutcome.cancelled) →
        (collect_results header outcomes).2 =
          QUERY_RESULT_MAX_PER_REQUEST * outcomes.length) := by
  constructor
  · have hlen : (startIndices n).length = (n - 1 + 100 - 1) / 100 := by
      simp [startIndices, pyRange, QUERY_RESULT_MAX_PER_REQUEST]
    rw [hlen]
    simp only [QUERY_RESULT_MAX_PER_REQUEST]
    omega
  · intro header outcomes hnc
    have hcount :
        outcomes.countP (fun o => decide (o ≠ TaskOutcome.cancelled)) =
          outcomes.length :=
      List.countP_eq_length.mpr (fun a ha => by simpa using hnc a ha)
    rw [collect_results_spec]
    show QUERY_RESULT_MAX_PER_REQUEST *
        outcomes.countP (fun o => decide (o ≠ TaskOutcome.cancelled)) =
      QUERY_RESULT_MAX_PER_REQUEST * outcomes.length
    rw [hcount]

/-- C8 (witness): the amended theorem at total_count 250 with three
resolved tasks: one failed page, one raising page and one successful page
each advance exactly 100 units, reaching 300 which is at least 250. -/
theorem c8_progress_reaches_total_witness :
    1 ≤ 250 ∧ 250 % 100 ≠ 1 ∧
      250 ≤ QUERY_RESULT_MAX_PER_REQUEST * (startIndices 250).length ∧
      (collect_results [some "Test name"]
          [TaskOutcome.completed none, TaskOutcome.raised,
            TaskOutcome.completed (some [[some "x"]])]).2 =
        QUERY_RESULT_MAX_PER_REQUEST * 3 := by
  have h := c8_progress_reaches_total 250 (by decide) (by decide)
  refine ⟨by decide, by decide, h.1, ?_⟩
  have h2 := h.2 [some "Test name"]
    [TaskOutcome.completed none, TaskOutcome.raised,
      TaskOutcome.completed (some [[some "x"]])] (by decide)
  simpa using h2

/-! ### Claims C4 and C10: the page fetcher -/

/-- C4 (counterexample): the claim fails as stated. On the same well-formed
response body, status 201 — inside the 200 range — does not succeed: the
code compares the status against exactly 200 and returns the failure
marker, while the identical body under status 200 decodes and maps. -/
theorem c4_2xx_not_success_counterexample :
    fetch_test_from_index 201
        (PyJson.obj [("entities", PyJson.arr
          [PyJson.obj [("Fields", PyJson.arr
            [PyJson.obj [("Name", PyJson.str "name"),
              ("values", PyJson.arr [PyJson.obj [("value", PyJson.str "T1")]])]])]])])
        [("Test name", "name")] = Except.ok none ∧
      fetch_test_from_index 200
        (PyJson.obj [("entities", PyJson.arr
          [PyJson.obj [("Fields", PyJson.arr
            [PyJson.obj [("Name", PyJson.str "name"),
              ("values", PyJson.arr [PyJson.obj [("value", PyJson.str "T1")]])]])]])])
        [("Test name", "name")] = Except.ok (some [[some "T1"]]) ∧
      (Except.ok (none : Option (List Row)) : Except String (Option (List Row))) ≠
        Except.ok (some [[some "T1"]]) := by
  refine ⟨rfl, rfl, by simp⟩

/-- C4 (amended): fetch_test_from_index succeeds (decodes and maps the
records) whenever the response status is exactly 200 and the body is a
well-formed entities list; for any status other than 200 — including other
statuses in the 2xx range — it returns the explicit failure marker without
raising, and it is a function of the single response it observes, so no
retry is attempted. -/
theorem c4_status_check (status : Nat) (body : PyJson) (m : Mapping) :
    (status ≠ 200 → fetch_test_from_index status body m = Except.ok none) ∧
      (∀ (flds : List (String × PyJson)) (tests : List PyJson) (recs : List RawRecord),
        body = PyJson.obj flds →
        dictGet flds "entities" = some (PyJson.arr tests) →
        tests.mapM decodeEntity = Except.ok recs →
        status = 200 →
        fetch_test_from_index status body m =
          Except.ok (some (recs.map (fun t => map_entity_to_test t m)))) := by
  constructor
  · intro hs
    simp [fetch_test_from_index, hs]
  · rintro flds tests recs rfl hent hdec rfl
    have hstep : fetch_test_from_index 200 (PyJson.obj flds) m =
        (tests.mapM decodeEntity).map
          (fun recs => some (recs.map (fun t => map_entity_to_test t m))) := by
      simp [fetch_test_from_index, hent]
    rw [hstep, hdec]
    rfl

/-- C4 (witness): the amended theorem at status 404 (failure marker) and at
status 200 on a concrete well-formed body (success). -/
theorem c4_status_check_witness :
    ((404 : Nat) ≠ 200 ∧
      fetch_test_from_index 404 (PyJson.obj []) [("Test name", "name")] = Except.ok none) ∧
      (fetch_test_from_index 200
          (PyJson.obj [("entities", PyJson.arr
            [PyJson.obj [("Fields", PyJson.arr
              [PyJson.obj [("Name", PyJson.str "owner"),
                ("values", PyJson.arr [PyJson.obj [("value", PyJson.str "me")]])]])]])])
          [("Owner", "owner")] =
        Except.ok (some [[some "me"]])) :=
  ⟨⟨by decide, (c4_status_check 404 (PyJson.obj []) [("Test name", "name")]).1 (by decide)⟩,
   (c4_status_check 200
      (PyJson.obj [("entities", PyJson.arr
        [PyJson.obj [("Fields", PyJson.arr
          [PyJson.obj [("Name", PyJson.str "owner"),
            ("values", PyJson.arr [PyJson.obj [("value", PyJson.str "me")]])]])]])])
      [("Owner", "owner")]).2
    [("entities", PyJson.arr
      [PyJson.obj [("Fields", PyJson.arr
        [PyJson.obj [("Name", PyJson.str "owner"),
          ("values", PyJson.arr [PyJson.obj [("value", PyJson.str "me")]])]])]])]
    [PyJson.obj [("Fields", PyJson.arr
      [PyJson.obj [("Name", PyJson.str "owner"),
        ("values", PyJson.arr [PyJson.obj [("value", PyJson.str "me")]])]])]]
    [⟨[⟨"owner", [some "me"]⟩]⟩] rfl rfl rfl rfl⟩

/-- C10: a 200 status alone does not guarantee the no-raise behaviour: for
every response with status 200 whose body is not a JSON object, or is a
JSON object without an "entities" key, fetch_test_from_index raises
(returns an error) instead of returning the failure marker or a list of
rows. -/
theorem c10_200_with_bad_body_raises (body : PyJson) (m : Mapping)
    (h : (∀ flds, body ≠ PyJson.obj flds) ∨
      (∃ flds, body = PyJson.obj flds ∧ dictGet flds "entities" = none)) :
    ∃ msg, fetch_test_from_index 200 body m = Except.error msg := by
  rcases h with h | ⟨flds, rfl, hent⟩
  · cases body with
    | obj flds => exact absurd rfl (h flds)
    | null => exact ⟨_, rfl⟩
    | str s => exact ⟨_, rfl⟩
    | num n => exact ⟨_, rfl⟩
    | bool b => exact ⟨_, rfl⟩
    | arr xs => exact ⟨_, rfl⟩
  · refine ⟨"TypeError: NoneType object is not iterable", ?_⟩
    simp [fetch_test_from_index, hent]

/-- C10 (witness): a body shaped like the count response (a JSON object
with only a TotalResults key) under status 200 raises. -/
theorem c10_200_with_bad_body_raises_witness :
    ((∀ flds, PyJson.obj [("TotalResults", PyJson.num 3)] ≠ PyJson.obj flds) ∨
      (∃ flds, PyJson.obj [("TotalResults", PyJson.num 3)] = PyJson.obj flds ∧
        dictGet flds "entities" = none)) ∧
      ∃ msg,
        fetch_test_from_index 200 (PyJson.obj [("TotalResults", PyJson.num 3)])
          [("Test name", "name")] = Except.error msg :=
  ⟨Or.inr ⟨_, rfl, rfl⟩,
   c10_200_with_bad_body_raises (PyJson.obj [("TotalResults", PyJson.num 3)])
     [("Test name", "name")] (Or.inr ⟨_, rfl, rfl⟩)⟩

/-! ### Claim C9: the configuration merge -/

theorem heapGet_heapSet_self (h : Heap) (a : Nat) (d : PyDict) (ha : a < h.length) :
    heapGet (heapSet h a d) a = d := by
  simp [heapGet, heapSet, List.getD, List.getElem?_set, ha]

theorem heapGet_heapSet_ne (h : Heap) (a b : Nat) (d : PyDict) (hab : a ≠ b) :
    heapGet (heapSet h a d) b = heapGet h b := by
  simp [heapGet, heapSet, List.getD]
  rw [List.getElem?_set]
  simp [hab]

theorem length_heapSet (h : Heap) (a : Nat) (d : PyDict) :
    (heapSet h a d).length = h.length := by
  simp [heapSet]

theorem merge_fold_flat (f orig : Nat) (items : List (String × PyVal))
    (hflat : ∀ p ∈ items, ∃ s, p.2 = PyVal.prim s) (h0 : Heap) :
    items.foldl
        (fun oh kv =>
          match oh with
          | none => none
          | some h =>
            match kv.2 with
            | .prim s =>
              some (heapSet h orig (setKey (heapGet h orig) kv.1 (.prim s)))
            | .ref updSub =>
              match dictGet (heapGet h orig) kv.1 with
              | some (.ref origSub) =>
                match merge_dicts f h origSub updSub with
                | some (h2, res) =>
                  some (heapSet h2 orig (setKey (heapGet h2 orig) kv.1 (.ref res)))
                | none => none
              | some (.prim _) => none
              | none =>
                match merge_dicts f (h ++ [[]]) h.length updSub with
                | some (h2, res) =>
                  some (heapSet h2 orig (setKey (heapGet h2 orig) kv.1 (.ref res)))
                | none => none)
        (some h0) =
      some (items.foldl
        (fun hh kv => heapSet hh orig (setKey (heapGet hh orig) kv.1 kv.2)) h0) := by
  induction items generalizing h0 with
  | nil => rfl
  | cons kv rest ih =>
    obtain ⟨s, hs⟩ := hflat kv (List.mem_cons_self kv rest)
    have hrest : ∀ p ∈ rest, ∃ s, p.2 = PyVal.prim s :=
      fun p hp => hflat p (List.mem_cons_of_mem kv hp)
    rw [List.foldl_cons, List.foldl_cons, hs]
    exact ih hrest _

theorem mut_fold_length (items : List (String × PyVal)) (orig : Nat) (h0 : Heap) :
    (items.foldl
        (fun hh kv => heapSet hh orig (setKey (heapGet hh orig) kv.1 kv.2)) h0).length =
      h0.length := by
  induction items generalizing h0 with
  | nil => rfl
  | cons kv rest ih =>
    rw [List.foldl_cons, ih, length_heapSet]

theorem mut_fold_get_orig (items : List (String × PyVal)) (orig : Nat) (h0 : Heap)
    (ha : orig < h0.length) :
    heapGet
        (items.foldl
          (fun hh kv => heapSet hh orig (setKey (heapGet hh orig) kv.1 kv.2)) h0)
        orig =
      items.foldl (fun d kv => setKey d kv.1 kv.2) (heapGet h0 orig) := by
  induction items generalizing h0 with
  | nil => rfl
  | cons kv rest ih =>
    rw [List.foldl_cons, List.foldl_cons]
    rw [ih _ (by rw [length_heapSet]; exact ha)]
    rw [heapGet_heapSet_self _ _ _ ha]

theorem mut_fold_get_other (items : List (String × PyVal)) (orig b : Nat) (h0 : Heap)
    (hb : orig ≠ b) :
    heapGet
        (items.foldl
          (fun hh kv => heapSet hh orig (setKey (heapGet hh orig) kv.1 kv.2)) h0)
        b = heapGet h0 b := by
  induction items generalizing h0 with
  | nil => rfl
  | cons kv rest ih =>
    rw [List.foldl_cons, ih, heapGet_heapSet_ne _ _ _ _ hb]

theorem fold_setKey_not_mem (items : List (String × PyVal)) (k : String)
    (hk : ∀ p ∈ items, p.1 ≠ k) (d : PyDict) :
    dictGet (items.foldl (fun d kv => setKey d kv.1 kv.2) d) k = dictGet d k := by
  induction items generalizing d with
  | nil => rfl
  | cons kv rest ih =>
    rw [List.foldl_cons]
    rw [ih (fun p hp => hk p (List.mem_cons_of_mem kv hp)) _]
    exact dictGet_setKey_ne _ _ _ _ (hk kv (List.mem_cons_self kv rest))

theorem fold_setKey_lookup (items : List (String × PyVal))
    (hnd : (items.map Prod.fst).Nodup) (k : String) (v : PyVal)
    (hmem : (k, v) ∈ items) (d : PyDict) :
    dictGet (items.foldl (fun d kv => setKey d kv.1 kv.2) d) k = some v := by
  induction items generalizing d with
  | nil => cases hmem
  | cons kv rest ih =>
    rcases List.mem_cons.mp hmem with heq | hmemr
    · subst heq
      rw [List.foldl_cons]
      have hnot : ∀ p ∈ rest, p.1 ≠ k := by
        intro p hp hpk
        have hmm : p.1 ∈ rest.map Prod.fst := List.mem_map_of_mem Prod.fst hp
        apply (List.nodup_cons.mp hnd).1
        rw [← hpk]
        exact hmm
      rw [fold_setKey_not_mem _ _ hnot]
      exact dictGet_setKey_self _ _ _
    · have hne : kv.1 ≠ k := by
        intro hkk
        apply (List.nodup_cons.mp hnd).1
        rw [hkk]
        exact List.mem_map_of_mem Prod.fst hmemr
      rw [List.foldl_cons]
      exact ih (List.nodup_cons.mp hnd).2 hmemr _

/-- C9 (counterexample): the claim fails as stated. With a base dictionary
binding a to 1 and an override binding a to 2, the call returns the merged
result, but the base object on the heap now holds the override binding:
the first argument was mutated in place, and the returned address is the
base address (shared mutation between argument and result). -/
theorem c9_merge_mutates_counterexample :
    merge_dicts 1 [[("a", PyVal.prim "1")], [("a", PyVal.prim "2")]] 0 1 =
        some ([[("a", PyVal.prim "2")], [("a", PyVal.prim "2")]], 0) ∧
      heapGet [[("a", PyVal.prim "2")], [("a", PyVal.prim "2")]] 0 ≠
        heapGet [[("a", PyVal.prim "1")], [("a", PyVal.prim "2")]] 0 := by
  refine ⟨by decide, by decide⟩

/-- C9 (amended): merge_dicts returns the merged result in which the
override bindings win, but it is not pure: it performs the merge by
mutating the base dictionary in place, and the returned dictionary is the
base object itself. Precisely: every successful call returns the base
address; and on a flat override object distinct from the base, the call
succeeds, the base object afterwards holds the override items assigned
over its previous contents, the override object is untouched, and every
override binding wins in the merged result. -/
theorem c9_merge_in_place :
    (∀ (fuel : Nat) (h : Heap) (a b : Nat) (h2 : Heap) (r : Nat),
        merge_dicts fuel h a b = some (h2, r) → r = a) ∧
      (∀ (f : Nat) (h : Heap) (a b : Nat),
        a ≠ b → a < h.length →
        (∀ p ∈ heapGet h b, ∃ s, p.2 = PyVal.prim s) →
        ∃ h2, merge_dicts (f + 1) h a b = some (h2, a) ∧
          heapGet h2 a =
            (heapGet h b).foldl (fun d kv => setKey d kv.1 kv.2) (heapGet h a) ∧
          heapGet h2 b = heapGet h b ∧
          (((heapGet h b).map Prod.fst).Nodup →
            ∀ k v, (k, v) ∈ heapGet h b → dictGet (heapGet h2 a) k = some v)) := by
  constructor
  · intro fuel h a b h2 r hm
    cases fuel with
    | zero => simp [merge_dicts] at hm
    | succ f =>
      rw [merge_dicts] at hm
      rcases Option.map_eq_some'.mp hm with ⟨h3, _, heq⟩
      exact (Prod.mk.injEq _ _ _ _).mp heq |>.2.symm ▸ rfl
  · intro f h a b hab ha hflat
    refine ⟨(heapGet h b).foldl
      (fun hh kv => heapSet hh a (setKey (heapGet hh a) kv.1 kv.2)) h, ?_, ?_, ?_, ?_⟩
    · rw [merge_dicts, merge_fold_flat f a (heapGet h b) hflat h]
      rfl
    · exact mut_fold_get_orig _ _ _ ha
    · exact mut_fold_get_other _ _ _ _ hab
    · intro hnd k v hmem
      rw [mut_fold_get_orig _ _ _ ha]
      exact fold_setKey_lookup _ hnd k v hmem _
/-- C9 (witness): the amended theorem at a concrete heap: base at address 0
binding a to 1 and x to 0, override at address 1 binding a to 2 and b to 3;
the call succeeds, returns the base address, leaves the override object
untouched, and the override bindings win in the mutated base. -/
theorem c9_merge_in_place_witness :
    (0 : Nat) ≠ 1 ∧
      0 < [[("a", PyVal.prim "1"), ("x", PyVal.prim "0")],
        [("a", PyVal.prim "2"), ("b", PyVal.prim "3")]].length ∧
      (∀ p ∈ heapGet [[("a", PyVal.prim "1"), ("x", PyVal.prim "0")],
          [("a", PyVal.prim "2"), ("b", PyVal.prim "3")]] 1, ∃ s, p.2 = PyVal.prim s) ∧
      (∃ h2, merge_dicts 1
          [[("a", PyVal.prim "1"), ("x", PyVal.prim "0")],
            [("a", PyVal.prim "2"), ("b", PyVal.prim "3")]] 0 1 = some (h2, 0) ∧
        heapGet h2 0 =
          (heapGet [[("a", PyVal.prim "1"), ("x", PyVal.prim "0")],
            [("a", PyVal.prim "2"), ("b", PyVal.prim "3")]] 1).foldl
            (fun d kv => setKey d kv.1 kv.2)
            (heapGet [[("a", PyVal.prim "1"), ("x", PyVal.prim "0")],
              [("a", PyVal.prim "2"), ("b", PyVal.prim "3")]] 0) ∧
        heapGet h2 1 =
          heapGet [[("a", PyVal.prim "1"), ("x", PyVal.prim "0")],
            [("a", PyVal.prim "2"), ("b", PyVal.prim "3")]] 1 ∧
        (((heapGet [[("a", PyVal.prim "1"), ("x", PyVal.prim "0")],
            [("a", PyVal.prim "2"), ("b", PyVal.prim "3")]] 1).map Prod.fst).Nodup →
          ∀ k v, (k, v) ∈ heapGet [[("a", PyVal.prim "1"), ("x", PyVal.prim "0")],
            [("a", PyVal.prim "2"), ("b", PyVal.prim "3")]] 1 →
          dictGet (heapGet h2 0) k = some v)) := by
  have hflat : ∀ p ∈ heapGet [[("a", PyVal.prim "1"), ("x", PyVal.prim "0")],
      [("a", PyVal.prim "2"), ("b", PyVal.prim "3")]] 1, ∃ s, p.2 = PyVal.prim s := by
    intro p hp
    rw [show heapGet [[("a", PyVal.prim "1"), ("x", PyVal.prim "0")],
      [("a", PyVal.prim "2"), ("b", PyVal.prim "3")]] 1 =
        [("a", PyVal.prim "2"), ("b", PyVal.prim "3")] from by decide] at hp
    rcases List.mem_cons.mp hp with rfl | hp2
    · exact ⟨_, rfl⟩
    rcases List.mem_cons.mp hp2 with rfl | hp3
    · exact ⟨_, rfl⟩
    cases hp3
  exact ⟨by decide, by decide, hflat,
    c9_merge_in_place.2 0
      [[("a", PyVal.prim "1"), ("x", PyVal.prim "0")],
        [("a", PyVal.prim "2"), ("b", PyVal.prim "3")]] 0 1 (by decide) (by decide) hflat⟩
